import Mathlib

/-!  A shallow embedding of the CyberTune ten-band equalizer engine
(`equ.py`): the audio worker state, the block-processing callback, the
filter-bank rebuild, preset application and the spectrum feed, together
with theorems checking the specification's claims against the code.  -/

namespace Equ

noncomputable section

/-- One audio frame: one sample per channel (`data[frame][channel]`,
as produced by `sf.read(..., always_2d=True)`). -/
abbrev Frame := List ℝ

/-- `BLOCK_SIZE = 2048` from the source. -/
def BLOCK_SIZE : ℕ := 2048

/-- The ten nominal band centre frequencies (`BANDS`).  Frequencies and
sample rates are kept in `ℚ`; the source's float literals are modelled as
exact rationals. -/
def BANDS : List ℚ := [32, 64, 125, 250, 500, 1000, 2000, 4000, 8000, 16000]

/-- The preset table `PRESETS` (name ↦ ten band gains in dB). -/
def PRESETS : List (String × List ℚ) :=
  [("Flat", [0, 0, 0, 0, 0, 0, 0, 0, 0, 0]),
   ("Rock", [5, 4, 3, 0, -1, -1, 0, 3, 4, 5]),
   ("Pop", [-2, -1, 0, 2, 4, 4, 2, 0, -1, -2]),
   ("Jazz", [4, 3, 1, 2, -2, -2, 0, 1, 3, 4]),
   ("Classical", [5, 4, 3, 2, -1, -1, 0, 2, 4, 5]),
   ("Electronic", [6, 5, 0, -2, 2, 0, 4, 5, 6, 6]),
   ("Vocal", [-3, -2, -1, 1, 3, 4, 4, 3, 1, -1])]

/-- One normalized second-order section `[b0, b1, b2, 1, a1, a2]` of a
cascaded-SOS filter, as produced by `scipy.signal.bessel(..., output='sos')`
(design functions return sections with `a0 = 1`). -/
structure Biquad where
  b0 : ℝ
  b1 : ℝ
  b2 : ℝ
  a1 : ℝ
  a2 : ℝ

/-- One step of a second-order section in direct form II transposed — the
recurrence `scipy.signal.sosfilt` implements: given the two delay values
`z` and the input sample `x`, produce the output sample and the new delays. -/
def biquadStep (s : Biquad) (z : ℝ × ℝ) (x : ℝ) : ℝ × ℝ × ℝ :=
  let y := s.b0 * x + z.1
  (y, s.b1 * x - s.a1 * y + z.2, s.b2 * x - s.a2 * y)

/-- Run one second-order section over a sequence of frames (axis 0),
channel-wise: `zs` carries one delay pair per channel.  Returns the filtered
frames and the final delay state. -/
def biquadRunZ (s : Biquad) : List (ℝ × ℝ) → List Frame → List Frame × List (ℝ × ℝ)
  | zs, [] => ([], zs)
  | zs, f :: fs =>
      let stepped := List.zipWith (fun x z => biquadStep s z x) f zs
      let rest := biquadRunZ s (stepped.map Prod.snd) fs
      ((stepped.map Prod.fst) :: rest.1, rest.2)

/-- A zero delay state for `ch` channels. -/
def zeroState (ch : ℕ) : List (ℝ × ℝ) := List.replicate ch (0, 0)

/-- Run a cascade of second-order sections, each with its explicit delay
state (this is `scipy.signal.sosfilt(sos, x, axis=0, zi=...)`).  Returns the
filtered chunk and the final delay state of every section. -/
def sosRunZ : List (Biquad × List (ℝ × ℝ)) → List Frame →
    List Frame × List (List (ℝ × ℝ))
  | [], chunk => (chunk, [])
  | (s, zs) :: rest, chunk =>
      let r1 := biquadRunZ s zs chunk
      let r2 := sosRunZ rest r1.1
      (r2.1, r1.2 :: r2.2)

/-- `scipy.signal.sosfilt(sos, chunk, axis=0)` exactly as the source calls
it: no `zi` argument, so every section starts from a zero delay state. -/
def sosfilt (sos : List Biquad) (chunk : List Frame) : List Frame :=
  (sosRunZ (sos.map fun s => (s, zeroState (chunk.headD []).length)) chunk).1

/-- The `AudioWorker` state: the fields set in `AudioWorker.__init__` and
mutated by the control surface and the callback. -/
structure Worker where
  data : Option (List Frame)
  fs : ℚ
  current_frame : ℕ
  is_playing : Bool
  gains : List ℝ
  preamp : ℝ
  master_vol : ℝ
  bass_boost : ℝ
  treble_boost : ℝ
  is_bass_booster_active : Bool
  sos_filters : List (List Biquad)

/-- The state built by `AudioWorker.__init__`. -/
def initWorker : Worker :=
  { data := none
    fs := 44100
    current_frame := 0
    is_playing := false
    gains := List.replicate 10 0
    preamp := 1
    master_vol := 0.8
    bass_boost := 0
    treble_boost := 0
    is_bass_booster_active := false
    sos_filters := [] }

/-- Hard clip of one sample to `[-1, 1]` (`np.clip(x, -1, 1)`). -/
def clip1 (x : ℝ) : ℝ := max (-1) (min 1 x)

/-- `np.clip(chunk, -1, 1, outdata)` applied to a whole block. -/
def clipFrames (chunk : List Frame) : List Frame := chunk.map (List.map clip1)

/-- Scalar multiplication of a whole block (`chunk *= c`). -/
def scaleFrames (c : ℝ) (chunk : List Frame) : List Frame :=
  chunk.map (List.map (fun x => c * x))

/-- Elementwise addition of two blocks (`processed_chunk += ...`). -/
def addFrames (a b : List Frame) : List Frame :=
  List.zipWith (List.zipWith (· + ·)) a b

/-- `outdata.fill(0)`: a silent block of the same shape as the buffer. -/
def silence (out : List Frame) : List Frame := out.map (List.map fun _ => 0)

/-- The per-band total gain in dB, computed exactly as in the callback:
`total_gain = gains[i]`, `+ bass_boost` (and `+ 8.0` when the booster is
active) for `i ≤ 2`, `+ treble_boost` for `i ≥ 7`. -/
def total_gain (st : Worker) (i : ℕ) : ℝ :=
  let t0 := st.gains.getD i 0
  let t1 := if i ≤ 2 then
      (if st.is_bass_booster_active then t0 + st.bass_boost + 8 else t0 + st.bass_boost)
    else t0
  if 7 ≤ i then t1 + st.treble_boost else t1

/-- `linear_gain = 10**(total_gain/20) - 1` from the callback. -/
def linear_gain (t : ℝ) : ℝ := (10 : ℝ) ^ (t / 20) - 1

/-- The band loop of the callback: starting from the pre-amp-scaled chunk,
for each `(i, sos)` in `enumerate(self.sos_filters)` with nonzero total
gain, add `sosfilt(sos, chunk) * linear_gain` into the accumulator. -/
def bandLoop (st : Worker) (chunk : List Frame) : List Frame :=
  st.sos_filters.enum.foldl
    (fun acc p =>
      if total_gain st p.1 ≠ 0 then
        addFrames acc (scaleFrames (linear_gain (total_gain st p.1)) (sosfilt p.2 chunk))
      else acc)
    chunk

/-- `np.mean(processed_chunk, axis=1)`: per-frame average over channels. -/
def channelMean (chunk : List Frame) : List ℝ :=
  chunk.map (fun f => f.sum / (f.length : ℝ))

/-- `np.hanning(n)` at position `k` (`numpy` returns `[1]` for `n = 1`). -/
def hanning (n k : ℕ) : ℝ :=
  if n = 1 then 1 else 1 / 2 - 1 / 2 * Real.cos (2 * Real.pi * k / ((n : ℝ) - 1))

/-- `signal * np.hanning(len(signal))`. -/
def hannWindowed (xs : List ℝ) : List ℝ :=
  xs.mapIdx (fun k x => hanning xs.length k * x)

/-- `np.abs(np.fft.rfft(xs))`: magnitudes of the real-input discrete Fourier
transform, `len xs / 2 + 1` values. -/
def rfftMag (xs : List ℝ) : List ℝ :=
  (List.range (xs.length / 2 + 1)).map fun (k : ℕ) =>
    Complex.abs (∑ n ∈ Finset.range xs.length,
      ((xs.getD n 0 : ℝ) : ℂ) *
        Complex.exp (-(2 * (Real.pi : ℂ) * Complex.I * (k : ℂ) * (n : ℂ)) / (xs.length : ℂ)))

/-- `AudioWorker.callback(outdata, frames, time, status)`.  Takes the prior
contents of `outdata` and returns the new worker state, the contents of
`outdata` after the call, and the spectrum data emitted (if any).  Note the
end-of-buffer branch returns without writing to `outdata`. -/
def callback (st : Worker) (outPrev : List Frame) (frames : ℕ) :
    Worker × List Frame × Option (List ℝ) :=
  if !st.is_playing || st.data.isNone then (st, silence outPrev, none)
  else
    let d := st.data.getD []
    if d.length < st.current_frame + frames then
      ({ st with is_playing := false }, outPrev, none)
    else
      let chunk := scaleFrames st.preamp ((d.drop st.current_frame).take frames)
      let processedChunk := scaleFrames st.master_vol (bandLoop st chunk)
      ({ st with current_frame := st.current_frame + frames },
        clipFrames processedChunk,
        some (rfftMag (hannWindowed (channelMean processedChunk))))

/-- `Visualizer.update_spectrum(data)`: when more than 60 values arrive,
replace the spectrum by the values at `np.linspace(0, len-1, 60).astype(int)`
(the floor of 60 evenly spaced positions); otherwise keep the old spectrum. -/
def update_spectrum (spectrum data : List ℝ) : List ℝ :=
  if 60 < data.length then
    (List.range 60).map (fun k => data.getD (k * (data.length - 1) / 59) 0)
  else spectrum

/-- A filter-design function: what `scipy.signal.bessel(2, [low, high],
btype='bandpass', fs=fs, output='sos')` returns on valid inputs.  The
numeric coefficient values are the library's concern; the embedding is
parametric in them. -/
def Design := ℚ → ℚ → ℚ → List Biquad

/-- Models the critical-frequency validation of the scipy design call: the
digital band edges must satisfy `0 < low`, `low < high` and `high < fs/2`
(`0 < Wn < 1` after normalization, low edge below high edge); otherwise the
call raises `ValueError`. -/
def besselValid (low high fs : ℚ) : Prop := 0 < low ∧ low < high ∧ high < fs / 2

instance besselValid.decidable (low high fs : ℚ) : Decidable (besselValid low high fs) :=
  inferInstanceAs (Decidable (_ ∧ _ ∧ _))

/-- The loop of `AudioWorker._update_filters`: for each centre frequency,
`low = freq * 0.707`, `high = min(freq * 1.414, fs/2 - 1)`, then the bessel
design call — which raises (an `Except.error`) on invalid band edges,
aborting the rebuild. -/
def design_bands (design : Design) (fs : ℚ) : List ℚ → Except Unit (List (List Biquad))
  | [] => .ok []
  | c :: rest =>
      let low := c * 0.707
      let high := min (c * 1.414) (fs / 2 - 1)
      if besselValid low high fs then
        match design_bands design fs rest with
        | .ok r => .ok (design low high fs :: r)
        | .error e => .error e
      else .error ()

/-- `AudioWorker._update_filters`: rebuild one band-pass filter per band. -/
def update_filters (design : Design) (fs : ℚ) : Except Unit (List (List Biquad)) :=
  design_bands design fs BANDS

/-- `AudioWorker.load_file`: the decode `sf.read(path, always_2d=True)` is
the external decoding collaborator; the model receives the buffer and sample
rate it returned.  The source then stores them, resets `current_frame` to 0
and calls `_update_filters` — with no validation of its own; a design error
propagates out as an exception. -/
def load_file (design : Design) (st : Worker) (data : List Frame) (fs : ℚ) :
    Except Unit Worker :=
  match update_filters design fs with
  | .ok filters =>
      .ok { st with data := some data, fs := fs, current_frame := 0,
                    sos_filters := filters }
  | .error e => .error e

/-- `EqualizerApp.apply_preset(name)` restricted to the engine state: if the
name is a key of `PRESETS`, write each preset value into `gains[i]` in order
(`for i, gain in enumerate(preset_gains): self.worker.gains[i] = gain`);
otherwise do nothing.  (The parallel slider updates are UI, out of scope.) -/
def apply_preset (st : Worker) (name : String) : Worker :=
  match List.lookup name PRESETS with
  | some gs =>
      { st with gains := gs.enum.foldl (fun a p => a.set p.1 ((p.2 : ℚ) : ℝ)) st.gains }
  | none => st

/-- `true` iff an `Except` is `ok`. -/
def exceptOk {ε α : Type} : Except ε α → Bool
  | .ok _ => true
  | .error _ => false

/-- `true` iff an `Except` is `error`. -/
def exceptErr {ε α : Type} (e : Except ε α) : Bool := !exceptOk e

/-- The per-band total gain exactly as the specification words it:
`totalGainDb = bandGain[i] + (bassBoost if i in {0,1,2} else 0) +
(8.0 if i in {0,1,2} and boosterActive else 0) +
(trebleBoost if i in {7,8,9} else 0)`.  Used to compare the spec's formula
against the code's `total_gain`. -/
def specTotalGainDb (gains : List ℝ) (bass treble : ℝ) (booster : Bool) (i : ℕ) : ℝ :=
  gains.getD i 0 + (if i ≤ 2 then bass else 0) +
    (if i ≤ 2 ∧ booster = true then 8 else 0) + (if 7 ≤ i then treble else 0)

/-- The band accumulation as the specification describes it: start from the
pre-amp-scaled dry chunk, and for each band with nonzero `specTotalGainDb`
add `sosfilt(sos, chunk) * (10^(totalGainDb/20) - 1)`; a band with zero
total gain is skipped entirely. -/
def specBandSum (st : Worker) (chunk : List Frame) : List Frame :=
  st.sos_filters.enum.foldl
    (fun acc p =>
      if specTotalGainDb st.gains st.bass_boost st.treble_boost st.is_bass_booster_active p.1 ≠ 0 then
        addFrames acc
          (scaleFrames
            (linear_gain (specTotalGainDb st.gains st.bass_boost st.treble_boost st.is_bass_booster_active p.1))
            (sosfilt p.2 chunk))
      else acc)
    chunk

/-- A single band's added energy at one filtered sample `f`:
`f * (10^(totalGainDb/20) - 1)`. -/
def bandContribution (f t : ℝ) : ℝ := f * linear_gain t

/-- A pure one-sample delay as a second-order section: `b = [0, 1, 0]`,
`a = [1, 0, 0]`.  A concrete stand-in for a band filter, used to exhibit the
per-block behaviour of the filter delay history. -/
def delayBiquad : Biquad := ⟨0, 1, 0, 0, 0⟩

/-- One device-callback invocation viewed as a transformer of the pair
(worker state, `outdata` buffer). -/
def stepBuf (N : ℕ) (p : Worker × List Frame) : Worker × List Frame :=
  ((callback p.1 p.2 N).1, (callback p.1 p.2 N).2.1)

/-- `k` successive device-callback invocations of `N` frames each. -/
def runN (N : ℕ) : ℕ → Worker × List Frame → Worker × List Frame
  | 0, p => p
  | k + 1, p => runN N k (stepBuf N p)

/-- A playing worker two frames into a three-frame buffer: the next
two-frame block would run past the end. -/
def stEnd : Worker :=
  { initWorker with data := some [[1], [1], [1]], is_playing := true, current_frame := 2 }

/-- A playing worker holding three one-channel frames of value `2` with
unit pre-amp and unit master volume, so the accumulator exceeds the clip
range. -/
def stHot : Worker :=
  { initWorker with data := some [[2], [2], [2]], is_playing := true, master_vol := 1 }

/-- A playing worker with two one-channel frames and all controls flat. -/
def stFlat : Worker :=
  { initWorker with data := some [[3], [3]], is_playing := true }

/-- A playing worker with a full bank of ten (delay) band filters. -/
def stTen : Worker :=
  { initWorker with data := some [[1]], is_playing := true,
                    sos_filters := List.replicate 10 [delayBiquad] }

/-- A playing worker with three one-channel frames and all controls flat. -/
def stFlat3 : Worker :=
  { initWorker with data := some [[1], [1], [1]], is_playing := true }

/-- A worker with band 0's gain at -15 dB, every other control flat. -/
def stGainNeg15 : Worker :=
  { initWorker with gains := [-15, 0, 0, 0, 0, 0, 0, 0, 0, 0] }

/-- A worker with band 0's gain at -5 dB, every other control flat. -/
def stGainNeg5 : Worker :=
  { initWorker with gains := [-5, 0, 0, 0, 0, 0, 0, 0, 0, 0] }

/-- A worker with band 0's gain at +5 dB, every other control flat. -/
def stGainFive : Worker :=
  { initWorker with gains := [5, 0, 0, 0, 0, 0, 0, 0, 0, 0] }

end

/-! ## Helper lemmas -/

lemma getD_eq_zero {l : List ℝ} (h : ∀ x ∈ l, x = 0) (i : ℕ) : l.getD i 0 = 0 := by
  induction l generalizing i with
  | nil => simp [List.getD]
  | cons a l ih =>
    cases i with
    | zero => simpa using h a (by simp)
    | succ n =>
      simpa using ih (fun x hx => h x (by simp [hx])) n

lemma total_gain_eq_zero {st : Worker} (hg : ∀ g ∈ st.gains, g = 0)
    (hb : st.bass_boost = 0) (ht : st.treble_boost = 0)
    (hbo : st.is_bass_booster_active = false) (i : ℕ) : total_gain st i = 0 := by
  simp only [total_gain]
  rw [getD_eq_zero hg, hb, ht, hbo]
  simp

lemma bandLoop_skip {st : Worker} (chunk : List Frame)
    (h : ∀ i, total_gain st i = 0) : bandLoop st chunk = chunk := by
  unfold bandLoop
  generalize st.sos_filters.enum = l
  induction l with
  | nil => rfl
  | cons p l ih => rw [List.foldl_cons, if_neg (by simp [h p.1])]; exact ih

lemma scaleFrames_scaleFrames (a b : ℝ) (c : List Frame) :
    scaleFrames a (scaleFrames b c) = scaleFrames (b * a) c := by
  unfold scaleFrames
  rw [List.map_map]
  congr 1
  funext f
  simp only [Function.comp_def]
  rw [List.map_map]
  congr 1
  funext x
  simp only [Function.comp_def]
  ring

/-! ## Claims -/

/-- C1: while playing with a loaded buffer and the next block in range, if
all band gains are zero, bass and treble boost are zero and the booster is
inactive, the callback's output block is exactly
`clip(chunk * preamp * master_vol, -1, 1)`, with no filter applied. -/
theorem identity_path (st : Worker) (out : List Frame) (frames : ℕ) (d : List Frame)
    (hg : ∀ g ∈ st.gains, g = 0) (hb : st.bass_boost = 0) (ht : st.treble_boost = 0)
    (hbo : st.is_bass_booster_active = false) (hp : st.is_playing = true)
    (hd : st.data = some d) (hfit : st.current_frame + frames ≤ d.length) :
    (callback st out frames).2.1 =
      clipFrames (scaleFrames (st.preamp * st.master_vol)
        ((d.drop st.current_frame).take frames)) := by
  unfold callback
  rw [hd, hp]
  simp only [Option.isNone_some, Bool.not_true, Bool.false_or, Option.getD_some]
  rw [if_neg (not_lt.mpr (by simpa using hfit))]
  rw [bandLoop_skip _ (total_gain_eq_zero hg hb ht hbo), scaleFrames_scaleFrames]
  simp

/-- Witness for C1 at a concrete flat state. -/
theorem identity_path_witness :
    stFlat.is_playing = true ∧
    (callback stFlat [[0]] 1).2.1 =
      clipFrames (scaleFrames (stFlat.preamp * stFlat.master_vol)
        ((([[3], [3]] : List Frame).drop stFlat.current_frame).take 1)) :=
  ⟨rfl, identity_path stFlat [[0]] 1 [[3], [3]]
    (fun g hg => by simpa [stFlat, initWorker] using hg)
    rfl rfl rfl rfl rfl (by norm_num [stFlat, initWorker])⟩

lemma total_gain_eq_spec (st : Worker) (i : ℕ) :
    total_gain st i =
      specTotalGainDb st.gains st.bass_boost st.treble_boost st.is_bass_booster_active i := by
  simp only [total_gain, specTotalGainDb]
  by_cases h2 : i ≤ 2 <;> by_cases h7 : 7 ≤ i <;>
    cases hbo : st.is_bass_booster_active <;> simp [h2, h7, hbo]

/-- C2: the callback's per-band processing agrees with the specification's
description: total gain per the flat formula, accumulator initialized to the
pre-amp-scaled dry chunk, `filtered * (10^(totalGainDb/20) - 1)` added for
bands with nonzero total gain, the filter skipped for zero total gain. -/
theorem band_synthesis (st : Worker) (out : List Frame) (frames : ℕ) (d : List Frame)
    (_hlen : st.sos_filters.length = 10) (hp : st.is_playing = true)
    (hd : st.data = some d) (hfit : st.current_frame + frames ≤ d.length) :
    (∀ i, total_gain st i =
      specTotalGainDb st.gains st.bass_boost st.treble_boost st.is_bass_booster_active i) ∧
    (callback st out frames).2.1 =
      clipFrames (scaleFrames st.master_vol
        (specBandSum st (scaleFrames st.preamp ((d.drop st.current_frame).take frames)))) := by
  refine ⟨total_gain_eq_spec st, ?_⟩
  have hbs : ∀ chunk, bandLoop st chunk = specBandSum st chunk := by
    intro chunk
    unfold bandLoop specBandSum
    congr 1
    funext acc p
    rw [total_gain_eq_spec]
  unfold callback
  rw [hd, hp]
  simp only [Option.isNone_some, Bool.not_true, Bool.false_or, Option.getD_some]
  rw [if_neg (not_lt.mpr (by simpa using hfit))]
  rw [hbs]
  simp

/-- Witness for C2 at a concrete playing state with ten filters. -/
theorem band_synthesis_witness :
    stTen.sos_filters.length = 10 ∧
    (callback stTen [[0]] 1).2.1 =
      clipFrames (scaleFrames stTen.master_vol
        (specBandSum stTen
          (scaleFrames stTen.preamp ((([[1]] : List Frame).drop stTen.current_frame).take 1)))) :=
  ⟨by simp [stTen, initWorker],
   (band_synthesis stTen [[0]] 1 [[1]] (by simp [stTen, initWorker]) rfl rfl
      (by norm_num [stTen, initWorker])).2⟩

lemma abs_clip1_le_one (y : ℝ) : |clip1 y| ≤ 1 := by
  unfold clip1
  rw [abs_le]
  exact ⟨le_max_left _ _, max_le (by norm_num) (min_le_left _ _)⟩

/-- C4: every sample of a block the callback writes to the output buffer has
absolute value at most 1, for arbitrary settings and buffer contents.  (The
hypothesis excludes only the end-of-buffer call, which writes no block.) -/
theorem output_clipped (st : Worker) (out : List Frame) (frames : ℕ)
    (h : st.is_playing = true → ∀ d, st.data = some d → st.current_frame + frames ≤ d.length) :
    ∀ f ∈ (callback st out frames).2.1, ∀ x ∈ f, |x| ≤ 1 := by
  intro f hf x hx
  unfold callback at hf
  by_cases hcond : (!st.is_playing || st.data.isNone) = true
  · rw [if_pos hcond] at hf
    simp only [silence, List.mem_map] at hf
    obtain ⟨f', -, rfl⟩ := hf
    simp only [List.mem_map] at hx
    obtain ⟨y, -, rfl⟩ := hx
    simp
  · rw [if_neg hcond] at hf
    have hp : st.is_playing = true := by
      revert hcond; cases st.is_playing <;> simp
    obtain ⟨d, hd⟩ : ∃ d, st.data = some d := by
      revert hcond; cases st.data <;> simp [hp]
    have hfit := h hp d hd
    rw [hd] at hf
    simp only [Option.getD_some] at hf
    rw [if_neg (not_lt.mpr (by simpa using hfit))] at hf
    simp only [clipFrames, List.mem_map] at hf
    obtain ⟨f', -, rfl⟩ := hf
    simp only [List.mem_map] at hx
    obtain ⟨y, -, rfl⟩ := hx
    exact abs_clip1_le_one y

/-- Witness for C4 at a concrete (idle) state and buffer. -/
theorem output_clipped_witness :
    (initWorker.is_playing = true →
      ∀ d, initWorker.data = some d → initWorker.current_frame + 5 ≤ d.length) ∧
    ∀ f ∈ (callback initWorker [[2]] 5).2.1, ∀ x ∈ f, |x| ≤ 1 :=
  ⟨by simp [initWorker], output_clipped initWorker [[2]] 5 (by simp [initWorker])⟩

lemma callback_fst_playing (st : Worker) (out : List Frame) (N : ℕ) (d : List Frame)
    (hp : st.is_playing = true) (hd : st.data = some d)
    (hfit : st.current_frame + N ≤ d.length) :
    (callback st out N).1 = { st with current_frame := st.current_frame + N } := by
  unfold callback
  rw [hd, hp]
  simp only [Option.isNone_some, Bool.not_true, Bool.false_or, Option.getD_some]
  rw [if_neg (not_lt.mpr (by simpa using hfit))]
  simp

lemma callback_end (st : Worker) (out : List Frame) (N : ℕ) (d : List Frame)
    (hp : st.is_playing = true) (hd : st.data = some d)
    (hover : d.length < st.current_frame + N) :
    callback st out N = ({ st with is_playing := false }, out, none) := by
  unfold callback
  rw [hd, hp]
  simp only [Option.isNone_some, Bool.not_true, Bool.false_or, Option.getD_some]
  rw [if_pos (show d.length < st.current_frame + N from hover)]
  simp

lemma callback_stopped (st : Worker) (out : List Frame) (N : ℕ)
    (hp : st.is_playing = false) :
    callback st out N = (st, silence out, none) := by
  unfold callback
  rw [hp]
  simp

lemma runN_fst (N : ℕ) : ∀ (k : ℕ) (st : Worker) (out : List Frame) (d : List Frame),
    st.is_playing = true → st.data = some d → st.current_frame + k * N ≤ d.length →
    (runN N k (st, out)).1 = { st with current_frame := st.current_frame + k * N } := by
  intro k
  induction k with
  | zero => intro st out d _ _ _; simp [runN]
  | succ k ih =>
    intro st out d hp hd hfit
    have hN1 : N ≤ (k + 1) * N := Nat.le_mul_of_pos_left N (Nat.succ_pos k)
    have hfit1 : st.current_frame + N ≤ d.length :=
      le_trans (Nat.add_le_add_left hN1 _) hfit
    have hfit2 : st.current_frame + N + k * N ≤ d.length := by
      have he : st.current_frame + N + k * N = st.current_frame + (k + 1) * N := by ring
      rw [he]; exact hfit
    rw [runN]
    have hstep : stepBuf N (st, out) =
        ({ st with current_frame := st.current_frame + N }, (callback st out N).2.1) := by
      unfold stepBuf
      rw [callback_fst_playing st out N d hp hd hfit1]
    rw [hstep, ih { st with current_frame := st.current_frame + N }
      ((callback st out N).2.1) d hp hd hfit2]
    congr 1
    ring

lemma runN_one (N : ℕ) (p : Worker × List Frame) : runN N 1 p = stepBuf N p := rfl

lemma runN_add (N : ℕ) : ∀ (a b : ℕ) (p : Worker × List Frame),
    runN N (a + b) p = runN N b (runN N a p) := by
  intro a
  induction a with
  | zero => intro b p; simp [runN]
  | succ a ih =>
    intro b p
    have h1 : a + 1 + b = (a + b) + 1 := by omega
    rw [h1, runN, runN, ih]

/-- C3 counterexample: at the end-of-buffer call the callback marks playback
stopped but returns without writing to the output buffer — the buffer keeps
its previous (non-silent) contents instead of being filled with zeros. -/
theorem truncation_no_silence_cex :
    (callback stEnd [[9], [9]] 2).1.is_playing = false ∧
    (callback stEnd [[9], [9]] 2).2.1 = [[9], [9]] ∧
    (callback stEnd [[9], [9]] 2).2.1 ≠ silence [[9], [9]] := by
  have h : callback stEnd [[9], [9]] 2 = ({ stEnd with is_playing := false }, [[9], [9]], none) :=
    callback_end stEnd [[9], [9]] 2 [[1], [1], [1]] rfl rfl (by norm_num [stEnd, initWorker])
  refine ⟨by rw [h], by rw [h], by rw [h]; simp [silence]⟩

/-- C3 (amended): with a buffer of length `L` not a multiple of the block
size `N`, playback survives exactly `L / N` full blocks, ending at position
`N * (L / N) = L - L % N`; the next call flips `is_playing` to `false` and
leaves the output buffer unchanged (it does not write silence); the partial
tail `[L - L % N, L)` is never reached, then or on any later call. -/
theorem truncation_policy (st : Worker) (d out : List Frame) (N : ℕ)
    (hp : st.is_playing = true) (hd : st.data = some d) (h0 : st.current_frame = 0)
    (hN : 0 < N) (hnd : ¬ N ∣ d.length) :
    ((runN N (d.length / N) (st, out)).1.current_frame = d.length - d.length % N) ∧
    ((runN N (d.length / N) (st, out)).1.is_playing = true) ∧
    ((runN N (d.length / N + 1) (st, out)).1.is_playing = false) ∧
    ((runN N (d.length / N + 1) (st, out)).1.current_frame = d.length - d.length % N) ∧
    ((runN N (d.length / N + 1) (st, out)).2 = (runN N (d.length / N) (st, out)).2) ∧
    (d.length - d.length % N < d.length) ∧
    (∀ j, (runN N (d.length / N + 1 + j) (st, out)).1.current_frame = d.length - d.length % N ∧
      (runN N (d.length / N + 1 + j) (st, out)).1.is_playing = false) := by
  have hdm : d.length = N * (d.length / N) + d.length % N := (Nat.div_add_mod d.length N).symm
  have hmod : d.length % N < N := Nat.mod_lt _ hN
  have hmodpos : 0 < d.length % N :=
    Nat.pos_of_ne_zero (fun hc => hnd (Nat.dvd_iff_mod_eq_zero.mpr hc))
  have hmodle : d.length % N ≤ d.length := Nat.mod_le _ _
  have hqN : d.length / N * N = d.length - d.length % N := by
    rw [mul_comm]; exact (Nat.sub_eq_of_eq_add hdm).symm
  have hfitk : st.current_frame + d.length / N * N ≤ d.length := by
    rw [h0, Nat.zero_add, hqN]; exact Nat.sub_le _ _
  have hrun := runN_fst N (d.length / N) st out d hp hd hfitk
  have hframe : (runN N (d.length / N) (st, out)).1.current_frame
      = d.length - d.length % N := by
    rw [hrun]
    show st.current_frame + d.length / N * N = d.length - d.length % N
    rw [h0, Nat.zero_add, hqN]
  have hplayk : (runN N (d.length / N) (st, out)).1.is_playing = true := by
    rw [hrun]; exact hp
  have hdatak : (runN N (d.length / N) (st, out)).1.data = some d := by
    rw [hrun]; exact hd
  have hover : d.length < (runN N (d.length / N) (st, out)).1.current_frame + N := by
    rw [hframe]
    calc d.length = d.length - d.length % N + d.length % N := (Nat.sub_add_cancel hmodle).symm
      _ < d.length - d.length % N + N := Nat.add_lt_add_left hmod _
  have hnext : runN N (d.length / N + 1) (st, out) =
      ({ (runN N (d.length / N) (st, out)).1 with is_playing := false },
        (runN N (d.length / N) (st, out)).2) := by
    have h1 : runN N (d.length / N + 1) (st, out)
        = stepBuf N (runN N (d.length / N) (st, out)) := by
      rw [runN_add N (d.length / N) 1, runN_one]
    rw [h1]
    unfold stepBuf
    rw [callback_end _ _ N d hplayk hdatak hover]
  have hstopped : ∀ j, (runN N (d.length / N + 1 + j) (st, out)).1 =
      { (runN N (d.length / N) (st, out)).1 with is_playing := false } := by
    intro j
    induction j with
    | zero => simpa using congrArg Prod.fst hnext
    | succ j ih =>
      have h1 : runN N (d.length / N + 1 + (j + 1)) (st, out)
          = stepBuf N (runN N (d.length / N + 1 + j) (st, out)) := by
        rw [show d.length / N + 1 + (j + 1) = (d.length / N + 1 + j) + 1 from rfl,
          runN_add N (d.length / N + 1 + j) 1, runN_one]
      rw [h1]
      unfold stepBuf
      rw [callback_stopped _ _ N (by simp [ih])]
      exact ih
  refine ⟨hframe, hplayk, ?_, ?_, by simp [hnext],
    Nat.sub_lt (lt_of_lt_of_le hmodpos hmodle) hmodpos, ?_⟩
  · simp [hnext]
  · rw [hnext]; exact hframe
  · intro j
    refine ⟨?_, by simp [hstopped j]⟩
    rw [hstopped j]
    exact hframe

/-- Witness for C3 at a concrete three-frame buffer and two-frame blocks. -/
theorem truncation_policy_witness :
    (¬ (2 ∣ ([[1], [1], [1]] : List Frame).length)) ∧
    (runN 2 (([[1], [1], [1]] : List Frame).length / 2 + 1) (stFlat3, [[5], [5]])).1.is_playing
      = false :=
  ⟨by decide,
   (truncation_policy stFlat3 [[1], [1], [1]] [[5], [5]] 2 rfl rfl rfl (by norm_num)
      (by decide)).2.2.1⟩

/-- C5 (code defect): the callback calls `sosfilt` without a `zi` argument,
so every block is filtered from a zero delay state.  Filtering the two-frame
signal `[1, 1]` in one call yields `[0, 1]` through a delay section, but
filtering the second frame as its own block yields `[0]`, not `[1]`: the
delay history left by the first block is discarded instead of being carried
into the next block as the claim requires. -/
theorem filter_state_reset_each_block :
    sosfilt [delayBiquad] [[(1 : ℝ)], [1]] = [[0], [1]] ∧
    sosfilt [delayBiquad] [[(1 : ℝ)]] = [[0]] ∧
    (biquadRunZ delayBiquad ((biquadRunZ delayBiquad (zeroState 1) [[(1 : ℝ)]]).2) [[1]]).1
      = [[1]] ∧
    ¬ ([[(0 : ℝ)]] : List Frame) = [[1]] := by
  refine ⟨?_, ?_, ?_, by norm_num⟩ <;>
    norm_num [sosfilt, sosRunZ, biquadRunZ, biquadStep, zeroState, delayBiquad,
      List.zipWith]

lemma design_bands_err (design : Design) (fs : ℚ) :
    ∀ l : List ℚ, (∃ c ∈ l, ¬ besselValid (c * 0.707) (min (c * 1.414) (fs / 2 - 1)) fs) →
      exceptErr (design_bands design fs l) = true := by
  intro l
  induction l with
  | nil => rintro ⟨c, hc, -⟩; cases hc
  | cons a l ih =>
    rintro ⟨c, hc, hval⟩
    simp only [design_bands]
    by_cases hv : besselValid (a * 0.707) (min (a * 1.414) (fs / 2 - 1)) fs
    · rw [if_pos hv]
      have hex : ∃ c ∈ l, ¬ besselValid (c * 0.707) (min (c * 1.414) (fs / 2 - 1)) fs := by
        rcases List.mem_cons.1 hc with rfl | hmem
        · exact absurd hv hval
        · exact ⟨c, hmem, hval⟩
      have herr := ih hex
      cases hgo : design_bands design fs l with
      | ok r => rw [hgo] at herr; simp [exceptErr, exceptOk] at herr
      | error e => simp [exceptErr, exceptOk]
    · rw [if_neg hv]
      simp [exceptErr, exceptOk]

/-- C6 counterexample: at sample rate 22050 the 16 kHz band's low cutoff
(11312) is at or above its high cutoff (11024), and the rebuild raises an
error from the design call instead of degrading that band to a
pass-through. -/
theorem degenerate_band_cex :
    (min ((16000 : ℚ) * 1.414) (22050 / 2 - 1) ≤ 16000 * 0.707) ∧
    exceptErr (update_filters (fun _ _ _ => []) 22050) = true := by
  constructor
  · norm_num [min_def]
  · norm_num [update_filters, design_bands, BANDS, besselValid, exceptErr, exceptOk, min_def]

/-- C6 (amended): for every sample rate at which some band's computed low
cutoff reaches or exceeds its high cutoff, the rebuild raises (the design
call rejects the band edges, and the error aborts `_update_filters`); no
band is degraded to a pass-through and the remaining bands are not built. -/
theorem degenerate_band_raises (design : Design) (fs : ℚ)
    (h : ∃ c ∈ BANDS, min (c * 1.414) (fs / 2 - 1) ≤ c * 0.707) :
    exceptErr (update_filters design fs) = true := by
  apply design_bands_err
  obtain ⟨c, hc, hle⟩ := h
  exact ⟨c, hc, fun hv => absurd hle (not_le.mpr hv.2.1)⟩

/-- Witness for C6 at the pathological sample rate 40 Hz. -/
theorem degenerate_band_raises_witness :
    (∃ c ∈ BANDS, min (c * 1.414) ((40 : ℚ) / 2 - 1) ≤ c * 0.707) ∧
    exceptErr (update_filters (fun _ _ _ => [delayBiquad]) 40) = true :=
  ⟨⟨32, by norm_num [BANDS], by norm_num [min_def]⟩,
   degenerate_band_raises (fun _ _ _ => [delayBiquad]) 40
     ⟨32, by norm_num [BANDS], by norm_num [min_def]⟩⟩

/-- C7 counterexample: loading an empty decoded buffer at 44100 Hz succeeds
— there is no InvalidInput validation of the buffer in `load_file`. -/
lemma exceptOk_map {ε α β : Type} (f : α → β) (e : Except ε α) :
    exceptOk (Except.map f e) = exceptOk e := by cases e <;> rfl

lemma load_file_map (design : Design) (st : Worker) (data : List Frame) (fs : ℚ) :
    load_file design st data fs =
      Except.map (fun filters => { st with data := some data, fs := fs,
                                           current_frame := 0, sos_filters := filters })
        (update_filters design fs) := by
  unfold load_file
  cases update_filters design fs <;> rfl

theorem load_empty_ok_cex :
    exceptOk (load_file (fun _ _ _ => []) initWorker [] 44100) = true := by
  rw [load_file_map, exceptOk_map]
  norm_num [update_filters, design_bands, BANDS, besselValid, exceptOk, min_def]

/-- C7 (amended): `load_file` performs no input validation of its own: for
any decoded buffer (including an empty one) it stores the buffer and sample
rate, resets the playback position to zero and installs the rebuilt filter
bank, failing only when the filter design call fails; a non-positive sample
rate is not rejected as InvalidInput — it makes the design call itself raise
during the rebuild. -/
theorem load_no_validation (design : Design) (st : Worker) (data : List Frame) (fs : ℚ) :
    load_file design st data fs =
      Except.map (fun filters => { st with data := some data, fs := fs,
                                           current_frame := 0, sos_filters := filters })
        (update_filters design fs) ∧
    (fs ≤ 0 → exceptErr (update_filters design fs) = true) := by
  constructor
  · exact load_file_map design st data fs
  · intro hfs
    apply design_bands_err
    refine ⟨32, by norm_num [BANDS], ?_⟩
    intro hv
    have h1 : min ((32 : ℚ) * 1.414) (fs / 2 - 1) ≤ fs / 2 - 1 := min_le_right _ _
    have h2 : fs / 2 - 1 ≤ -1 := by linarith
    have h3 : (0 : ℚ) < 32 * 0.707 := by norm_num
    have h4 := hv.2.1
    linarith

/-- Witness for C7 at an empty buffer and a non-positive sample rate. -/
theorem load_no_validation_witness :
    ((-1 : ℚ) ≤ 0) ∧
    load_file (fun _ _ _ => []) initWorker [] (-1) =
      Except.map (fun filters => { initWorker with data := some ([] : List Frame),
                                                   fs := (-1 : ℚ), current_frame := 0,
                                                   sos_filters := filters })
        (update_filters (fun _ _ _ => []) (-1)) ∧
    exceptErr (update_filters (fun _ _ _ => ([] : List Biquad)) (-1)) = true :=
  ⟨by norm_num, (load_no_validation (fun _ _ _ => []) initWorker [] (-1)).1,
   (load_no_validation (fun _ _ _ => []) initWorker [] (-1)).2 (by norm_num)⟩

/-- C9 counterexample: raising band 0's gain from -15 dB to -5 dB (all other
controls fixed and flat) strictly shrinks the magnitude of that band's added
energy `filtered * (10^(totalGainDb/20) - 1)`: the linear multiplier is
negative below 0 dB and its magnitude decreases toward zero as the gain
rises, so the claimed monotonicity fails on the negative gain range. -/
theorem gain_monotonicity_cex :
    ((-15 : ℝ) ≤ -5) ∧
    |bandContribution 1 (total_gain stGainNeg5 0)| <
      |bandContribution 1 (total_gain stGainNeg15 0)| := by
  have e5 : total_gain stGainNeg5 0 = -5 := by
    simp [total_gain, stGainNeg5, initWorker]
  have e15 : total_gain stGainNeg15 0 = -15 := by
    simp [total_gain, stGainNeg15, initWorker]
  refine ⟨by norm_num, ?_⟩
  rw [e5, e15]
  unfold bandContribution linear_gain
  rw [one_mul, one_mul]
  have h10 : (1 : ℝ) < 10 := by norm_num
  have ha : (10 : ℝ) ^ ((-5 : ℝ) / 20) < 1 :=
    Real.rpow_lt_one_of_one_lt_of_neg h10 (by norm_num)
  have hb : (10 : ℝ) ^ ((-15 : ℝ) / 20) < 1 :=
    Real.rpow_lt_one_of_one_lt_of_neg h10 (by norm_num)
  have hab : (10 : ℝ) ^ ((-15 : ℝ) / 20) < (10 : ℝ) ^ ((-5 : ℝ) / 20) :=
    (Real.rpow_lt_rpow_left_iff h10).mpr (by norm_num)
  rw [abs_of_neg (by linarith), abs_of_neg (by linarith)]
  linarith

/-- C9 (amended): for two states that agree on the boost controls, with band
`i`'s gain increased and the total gain staying nonnegative, the magnitude
of that band's added energy is non-decreasing (the failure is confined to
negative total gains, as the counterexample shows). -/
theorem gain_monotone_nonneg (stA stB : Worker) (i : ℕ) (f : ℝ)
    (hb : stA.bass_boost = stB.bass_boost) (ht : stA.treble_boost = stB.treble_boost)
    (hbo : stA.is_bass_booster_active = stB.is_bass_booster_active)
    (hg : stA.gains.getD i 0 ≤ stB.gains.getD i 0)
    (h0 : 0 ≤ total_gain stA i) :
    |bandContribution f (total_gain stA i)| ≤ |bandContribution f (total_gain stB i)| := by
  have h10 : (1 : ℝ) < 10 := by norm_num
  have hmono : total_gain stA i ≤ total_gain stB i := by
    unfold total_gain
    rw [hb, ht, hbo]
    simp only [List.getD_eq_getElem?_getD] at hg ⊢
    split_ifs <;> linarith
  have hl1 : 0 ≤ linear_gain (total_gain stA i) := by
    unfold linear_gain
    have h := (Real.rpow_le_rpow_left_iff h10).mpr
      (div_nonneg h0 (by norm_num : (0 : ℝ) ≤ 20))
    rw [Real.rpow_zero] at h
    linarith
  have hlin : linear_gain (total_gain stA i) ≤ linear_gain (total_gain stB i) := by
    unfold linear_gain
    have h := (Real.rpow_le_rpow_left_iff h10).mpr
      ((div_le_div_iff_of_pos_right (by norm_num : (0 : ℝ) < 20)).mpr hmono)
    linarith
  unfold bandContribution
  rw [abs_mul, abs_mul, abs_of_nonneg hl1, abs_of_nonneg (le_trans hl1 hlin)]
  exact mul_le_mul_of_nonneg_left hlin (abs_nonneg f)

lemma sum_range_getD (xs : List ℝ) :
    ∑ n ∈ Finset.range xs.length, xs.getD n 0 = xs.sum := by
  induction xs with
  | nil => simp
  | cons a l ih =>
    rw [List.length_cons, Finset.sum_range_succ']
    simp only [List.getD_cons_succ, List.getD_cons_zero, List.sum_cons]
    rw [ih]; ring

lemma rfftMag_head (xs : List ℝ) : (rfftMag xs).getD 0 0 = |xs.sum| := by
  unfold rfftMag
  rw [List.range_succ_eq_map, List.map_cons, List.getD_cons_zero]
  simp only [Nat.cast_zero, mul_zero, zero_mul, neg_zero, zero_div, Complex.exp_zero,
    mul_one, List.getD_eq_getElem?_getD]
  rw [show (∑ n ∈ Finset.range xs.length, ((xs[n]?.getD 0 : ℝ) : ℂ))
      = ((xs.sum : ℝ) : ℂ) by
    rw [← Complex.ofReal_sum]
    norm_cast
    calc ∑ n ∈ Finset.range xs.length, xs[n]?.getD 0
        = ∑ n ∈ Finset.range xs.length, xs.getD n 0 := by
          simp only [List.getD_eq_getElem?_getD]
      _ = xs.sum := sum_range_getD xs]
  exact Complex.abs_ofReal _

lemma rfftMag_nonneg (xs : List ℝ) : ∀ v ∈ rfftMag xs, 0 ≤ v := by
  intro v hv
  unfold rfftMag at hv
  simp only [List.mem_map] at hv
  obtain ⟨k, -, rfl⟩ := hv
  exact Complex.abs.nonneg _

lemma getD_nonneg (l : List ℝ) (h : ∀ v ∈ l, 0 ≤ v) (i : ℕ) : 0 ≤ l.getD i 0 := by
  rcases lt_or_ge i l.length with hi | hi
  · rw [List.getD_eq_getElem l 0 hi]
    exact h _ (List.getElem_mem hi)
  · rw [List.getD_eq_default l 0 hi]

lemma update_spectrum_length (prev dat : List ℝ) (h : 60 < dat.length) :
    (update_spectrum prev dat).length = 60 := by
  unfold update_spectrum
  rw [if_pos h]
  simp

lemma hanning_three : hanning 3 0 = 0 ∧ hanning 3 1 = 1 ∧ hanning 3 2 = 0 := by
  refine ⟨?_, ?_, ?_⟩
  · rw [hanning, if_neg (by norm_num)]
    have h1 : 2 * Real.pi * ((0 : ℕ) : ℝ) / (((3 : ℕ) : ℝ) - 1) = 0 := by push_cast; ring
    rw [h1, Real.cos_zero]; norm_num
  · rw [hanning, if_neg (by norm_num)]
    have h1 : 2 * Real.pi * ((1 : ℕ) : ℝ) / (((3 : ℕ) : ℝ) - 1) = Real.pi := by
      push_cast; ring
    rw [h1, Real.cos_pi]; norm_num
  · rw [hanning, if_neg (by norm_num)]
    have h1 : 2 * Real.pi * ((2 : ℕ) : ℝ) / (((3 : ℕ) : ℝ) - 1) = 2 * Real.pi := by
      push_cast; ring
    rw [h1, Real.cos_two_pi]; norm_num

lemma hannWindowed_three (a : ℝ) : hannWindowed [a, a, a] = [0, a, 0] := by
  show List.mapIdx (fun k x => hanning 3 k * x) [a, a, a] = [0, a, 0]
  simp only [List.mapIdx_cons, List.mapIdx_nil]
  rw [hanning_three.1, hanning_three.2.1, hanning_three.2.2]
  norm_num

/-- C8 counterexample: the block handed to the spectrum feed is not the
clipped output block.  With three frames of value 2 (unit pre-amp and master
volume), the callback writes the clipped block `[1,1,1]` to the output, but
the emitted spectrum is computed from the unclipped `[2,2,2]`
(`np.clip` writes into `outdata`, leaving `processed_chunk` unclipped, and
the feed uses `processed_chunk`); the two spectra differ already at bin 0. -/
theorem spectrum_preclip_cex :
    (callback stHot [[0], [0], [0]] 3).2.2 ≠
      some (rfftMag (hannWindowed (channelMean ((callback stHot [[0], [0], [0]] 3).2.1)))) := by
  have h1 : (callback stHot [[0], [0], [0]] 3).2.2
      = some (rfftMag (hannWindowed [(2 : ℝ), 2, 2])) := by
    norm_num [callback, stHot, initWorker, bandLoop, scaleFrames, channelMean]
  have h2 : (callback stHot [[0], [0], [0]] 3).2.1 = [[(1 : ℝ)], [1], [1]] := by
    norm_num [callback, stHot, initWorker, bandLoop, scaleFrames, clipFrames, clip1,
      min_def, max_def]
  have hch : channelMean [[(1 : ℝ)], [1], [1]] = [1, 1, 1] := by
    norm_num [channelMean]
  have hA : (rfftMag (hannWindowed [(2 : ℝ), 2, 2])).getD 0 0 = 2 := by
    rw [hannWindowed_three, rfftMag_head]; norm_num
  have hB : (rfftMag (hannWindowed (channelMean [[(1 : ℝ)], [1], [1]]))).getD 0 0 = 1 := by
    rw [hch, hannWindowed_three, rfftMag_head]; norm_num
  intro hEq
  rw [h1, h2] at hEq
  have hlist := Option.some.inj hEq
  have hgd := congrArg (fun l : List ℝ => l.getD 0 0) hlist
  simp only at hgd
  rw [hA, hB] at hgd
  norm_num at hgd

/-- C8 (amended): the block handed to the spectrum feed is the
master-volume-scaled accumulator before clipping (the written output is its
clipped copy); the emitted data are the magnitudes of the real-input
transform of the Hann-windowed channel average of that pre-clip block, all
non-negative; the published snapshot keeps 60 values picked at the floor of
evenly spaced indices, and stays non-negative. -/
theorem spectrum_pipeline (st : Worker) (out : List Frame) (frames : ℕ) (d : List Frame)
    (prev : List ℝ)
    (hp : st.is_playing = true) (hd : st.data = some d)
    (hfit : st.current_frame + frames ≤ d.length) :
    ((callback st out frames).2.2 =
      some (rfftMag (hannWindowed (channelMean (scaleFrames st.master_vol
        (bandLoop st (scaleFrames st.preamp ((d.drop st.current_frame).take frames)))))))) ∧
    ((callback st out frames).2.1 =
      clipFrames (scaleFrames st.master_vol
        (bandLoop st (scaleFrames st.preamp ((d.drop st.current_frame).take frames))))) ∧
    (∀ l, (callback st out frames).2.2 = some l → ∀ v ∈ l, 0 ≤ v) ∧
    (∀ dat : List ℝ, 60 < dat.length → (update_spectrum prev dat).length = 60) ∧
    (∀ dat : List ℝ, (∀ v ∈ prev, 0 ≤ v) → (∀ v ∈ dat, 0 ≤ v) →
      ∀ v ∈ update_spectrum prev dat, 0 ≤ v) := by
  have hcb : callback st out frames =
      ({ st with current_frame := st.current_frame + frames },
        clipFrames (scaleFrames st.master_vol
          (bandLoop st (scaleFrames st.preamp ((d.drop st.current_frame).take frames)))),
        some (rfftMag (hannWindowed (channelMean (scaleFrames st.master_vol
          (bandLoop st (scaleFrames st.preamp ((d.drop st.current_frame).take frames)))))))) := by
    unfold callback
    rw [hd, hp]
    simp only [Option.isNone_some, Bool.not_true, Bool.false_or, Option.getD_some]
    rw [if_neg (not_lt.mpr (by simpa using hfit))]
    simp
  refine ⟨by rw [hcb], by rw [hcb], ?_, fun dat h => update_spectrum_length prev dat h, ?_⟩
  · intro l hl
    rw [hcb] at hl
    simp only [Option.some.injEq] at hl
    rw [← hl]
    exact rfftMag_nonneg _
  · intro dat hprev hdat v hv
    by_cases hlen : 60 < dat.length
    · rw [update_spectrum, if_pos hlen] at hv
      simp only [List.mem_map] at hv
      obtain ⟨k, -, rfl⟩ := hv
      exact getD_nonneg dat hdat _
    · rw [update_spectrum, if_neg hlen] at hv
      exact hprev v hv

/-- Witness for C8 at a concrete playing state. -/
theorem spectrum_pipeline_witness :
    stFlat.is_playing = true ∧
    (callback stFlat [[0]] 1).2.2 =
      some (rfftMag (hannWindowed (channelMean (scaleFrames stFlat.master_vol
        (bandLoop stFlat (scaleFrames stFlat.preamp
          ((([[3], [3]] : List Frame).drop stFlat.current_frame).take 1))))))) :=
  ⟨rfl, (spectrum_pipeline stFlat [[0]] 1 [[3], [3]] [] rfl rfl
    (by norm_num [stFlat, initWorker])).1⟩

/-- Witness for C9: raising band 0's gain from 0 dB to +5 dB. -/
theorem gain_monotone_nonneg_witness :
    (initWorker.gains.getD 0 0 ≤ stGainFive.gains.getD 0 0) ∧
    (0 ≤ total_gain initWorker 0) ∧
    |bandContribution 1 (total_gain initWorker 0)| ≤
      |bandContribution 1 (total_gain stGainFive 0)| :=
  ⟨by norm_num [initWorker, stGainFive],
   by norm_num [total_gain, initWorker],
   gain_monotone_nonneg initWorker stGainFive 0 1 rfl rfl rfl
     (by norm_num [initWorker, stGainFive]) (by norm_num [total_gain, initWorker])⟩

lemma foldl_set_length (ps : List (ℕ × ℚ)) : ∀ l : List ℝ,
    (ps.foldl (fun a p => a.set p.1 ((p.2 : ℚ) : ℝ)) l).length = l.length := by
  induction ps with
  | nil => intro l; rfl
  | cons p ps ih =>
    intro l
    rw [List.foldl_cons, ih, List.length_set]

lemma foldl_set_getD (gs : List ℚ) : ∀ (n : ℕ) (l : List ℝ) (i : ℕ),
    ((gs.enumFrom n).foldl (fun a p => a.set p.1 ((p.2 : ℚ) : ℝ)) l).getD i 0 =
      if n ≤ i ∧ i < n + gs.length ∧ i < l.length then ((gs.getD (i - n) 0 : ℚ) : ℝ)
      else l.getD i 0 := by
  induction gs with
  | nil =>
    intro n l i
    rw [if_neg (by simp; omega)]
    rfl
  | cons g gs ih =>
    intro n l i
    rw [List.enumFrom_cons, List.foldl_cons, ih (n + 1) (l.set n ((g : ℚ) : ℝ)) i]
    simp only [List.length_cons, List.length_set]
    by_cases h1 : n ≤ i
    · by_cases h2 : i = n
      · subst h2
        rw [if_neg (by omega)]
        by_cases h3 : i < l.length
        · rw [if_pos ⟨le_refl i, by omega, h3⟩]
          rw [show i - i = 0 by omega, List.getD_cons_zero]
          simp [List.getD_eq_getElem?_getD, List.getElem?_set_self h3]
        · rw [if_neg (fun hc => h3 hc.2.2),
            List.set_eq_of_length_le (by omega : l.length ≤ i)]
      · have h4 : n + 1 ≤ i := by omega
        by_cases h5 : i < n + 1 + gs.length ∧ i < l.length
        · rw [if_pos ⟨h4, h5.1, h5.2⟩, if_pos ⟨h1, by omega, h5.2⟩]
          rw [show i - n = (i - (n + 1)) + 1 by omega, List.getD_cons_succ]
        · rw [if_neg (fun hc => h5 ⟨hc.2.1, hc.2.2⟩),
            if_neg (fun hc => h5 ⟨by omega, hc.2.2⟩)]
          simp [List.getD_eq_getElem?_getD, List.getElem?_set_ne (show n ≠ i by omega)]
    · rw [if_neg (by omega), if_neg (by omega)]
      simp [List.getD_eq_getElem?_getD, List.getElem?_set_ne (show n ≠ i by omega)]

/-- C10: `apply_preset` with a name that is not one of the seven preset keys
is a no-op (no error, state untouched); with a defined name it writes the
preset's i-th value into band gain i and leaves every other parameter of the
worker unchanged. -/
theorem apply_preset_spec (st : Worker) (name : String) :
    (List.lookup name PRESETS = none → apply_preset st name = st) ∧
    (∀ gs, List.lookup name PRESETS = some gs →
      ((apply_preset st name).gains.length = st.gains.length ∧
       (∀ i, i < gs.length → i < st.gains.length →
         (apply_preset st name).gains.getD i 0 = ((gs.getD i 0 : ℚ) : ℝ)) ∧
       (apply_preset st name).data = st.data ∧
       (apply_preset st name).preamp = st.preamp ∧
       (apply_preset st name).master_vol = st.master_vol ∧
       (apply_preset st name).bass_boost = st.bass_boost ∧
       (apply_preset st name).treble_boost = st.treble_boost ∧
       (apply_preset st name).is_bass_booster_active = st.is_bass_booster_active ∧
       (apply_preset st name).sos_filters = st.sos_filters ∧
       (apply_preset st name).is_playing = st.is_playing ∧
       (apply_preset st name).current_frame = st.current_frame ∧
       (apply_preset st name).fs = st.fs)) := by
  constructor
  · intro hn
    unfold apply_preset
    rw [hn]
  · intro gs hgs
    have hap : apply_preset st name =
        { st with gains := gs.enum.foldl (fun a p => a.set p.1 ((p.2 : ℚ) : ℝ)) st.gains } := by
      unfold apply_preset
      rw [hgs]
    rw [hap]
    refine ⟨foldl_set_length _ _, ?_, rfl, rfl, rfl, rfl, rfl, rfl, rfl, rfl, rfl, rfl⟩
    intro i hi hlen
    show ((gs.enumFrom 0).foldl (fun a p => a.set p.1 ((p.2 : ℚ) : ℝ)) st.gains).getD i 0
      = ((gs.getD i 0 : ℚ) : ℝ)
    rw [foldl_set_getD gs 0 st.gains i, if_pos ⟨Nat.zero_le i, by omega, hlen⟩,
      Nat.sub_zero]

/-- Witness for C10: "Metal" is not a preset and leaves the state unchanged;
"Rock" sets band 0's gain to 5 dB. -/
theorem apply_preset_spec_witness :
    (List.lookup "Metal" PRESETS = none) ∧
    apply_preset initWorker "Metal" = initWorker ∧
    (apply_preset initWorker "Rock").gains.getD 0 0 = ((5 : ℚ) : ℝ) := by
  have hm : List.lookup "Metal" PRESETS = none := by decide
  have hr : List.lookup "Rock" PRESETS = some [5, 4, 3, 0, -1, -1, 0, 3, 4, 5] := by decide
  refine ⟨hm, (apply_preset_spec initWorker "Metal").1 hm, ?_⟩
  have h := ((apply_preset_spec initWorker "Rock").2 [5, 4, 3, 0, -1, -1, 0, 3, 4, 5] hr).2.1
    0 (by norm_num) (by norm_num [initWorker])
  simpa using h

end Equ
